import Mathlib

/-!
Verification development for the CryptoPredictorApp dashboard repository.

The repository is a set of Streamlit pages (Bitcoin, Ethereum, Solana, Ripple)
that fetch OHLC market data from upstream REST APIs, normalize it into tabular
series, cache it in session state with TTL/cooldown gating, and call external
prediction endpoints.  This file gives a shallow embedding of the data-fetch,
normalization, caching, cooldown, retry and input-building logic of those
pages, and proves (or refutes) the specified properties about them.

Machine floats in the source are modelled as `Int` values (the properties at
stake concern ordering, selection and control flow, not float arithmetic);
`NaN` / missing values are modelled as `Option.none`.  HTTP calls are modelled
by response oracles passed as explicit arguments.
-/

/-! ### Generic sorting (models pandas `sort_values` on one key) -/

/-- Insert `a` into `l` before the first element whose key is not smaller. -/
def insertOn (key : α → Int) (a : α) : List α → List α
  | [] => [a]
  | b :: l => if key a ≤ key b then a :: b :: l else b :: insertOn key a l

/-- Insertion sort by an `Int`-valued key; models `DataFrame.sort_values(col)`
(ascending, rows with equal keys all retained). -/
def sortOn (key : α → Int) : List α → List α
  | [] => []
  | a :: l => insertOn key a (sortOn key l)

/-! ### Ripple.py: history normalization (`refresh_all_histories`) -/

/-- One raw row of the XRP history payload after pandas parsing:
`pd.to_datetime(..., errors="coerce")` and `pd.to_numeric(..., errors="coerce")`
yield `none` for an unparsable timestamp or price. -/
structure RawRow where
  ts : Option Int
  price : Option Int
deriving DecidableEq, Repr

/-- Keep a row only when both its timestamp and price parsed
(`df.dropna(subset=["ts", "price"])`). -/
def parseRow (r : RawRow) : Option (Int × Int) :=
  match r.ts, r.price with
  | some t, some p => some (t, p)
  | _, _ => none

/-- The normalization applied to each window's payload inside
`refresh_all_histories` (Ripple.py): coerce-parse timestamps and prices, drop
rows where either failed, and sort ascending by timestamp.  The source
performs no deduplication of timestamps. -/
def normalizeHistory (rows : List RawRow) : List (Int × Int) :=
  sortOn Prod.fst (rows.filterMap parseRow)

/-- The per-window cache value stored in `st.session_state.hist_cache`. -/
structure HistEntry where
  df : List (Int × Int)
  as_of : String
deriving DecidableEq, Repr

/-- The four window keys fetched by `refresh_all_histories`. -/
def historyWindows : List String := ["day", "week", "month", "year"]

/-- `refresh_all_histories` (Ripple.py): fetch all four windows; on the first
window whose fetch errors or lacks data, return the error and discard all
partial results; otherwise return the full normalized cache.
The network is modelled by `fetch`, giving each window's payload
(`none` models `err or not js or "data" not in js`). -/
def refresh_all_histories (fetch : String → Option (List RawRow × String)) :
    Except String (List (String × HistEntry)) :=
  go historyWindows
where
  go : List String → Except String (List (String × HistEntry))
    | [] => .ok []
    | w :: ws =>
      match fetch w with
      | none => .error (w ++ ": no data")
      | some (rows, asOf) =>
        match go ws with
        | .error e => .error e
        | .ok rest => .ok ((w, ⟨normalizeHistory rows, asOf⟩) :: rest)

/-- The Ripple page's session state relevant to history caching:
`st.session_state.hist_cache` and `st.session_state.hist_refreshed_at`
(`0` means "never refreshed", matching the `0.0` sentinel). -/
structure SessionState where
  hist_cache : List (String × HistEntry)
  hist_refreshed_at : Nat
deriving DecidableEq, Repr

/-- `HISTORY_TTL = 300` (seconds) in Ripple.py; it is both the cache TTL and
the manual-refresh cooldown. -/
def HISTORY_TTL : Nat := 300

/-- One page run of Ripple.py reading the history for `window`:
if `hist_refreshed_at == 0.0` the page performs the one first-time
`refresh_all_histories` network fetch and stores the result on success;
otherwise the displayed series is read straight from `hist_cache` with no
network access.  Returns (new state, displayed entry, number of network
fetch operations performed). -/
def pageGet (fetch : String → Option (List RawRow × String)) (s : SessionState)
    (now : Nat) (window : String) :
    SessionState × Option HistEntry × Nat :=
  if s.hist_refreshed_at = 0 then
    match refresh_all_histories fetch with
    | .ok cache =>
      let s' : SessionState := ⟨cache, now⟩
      (s', (s'.hist_cache.lookup window), 1)
    | .error _ => (s, s.hist_cache.lookup window, 1)
  else
    (s, s.hist_cache.lookup window, 0)

/-- A click of the "Refresh history" button (Ripple.py): the button is
disabled (the request refused, no network call) while
`max(0, HISTORY_TTL - int(now - hist_refreshed_at)) > 0`; otherwise the page
runs `refresh_all_histories` and, only on success, replaces `hist_cache` and
`hist_refreshed_at` together.  Returns (new state, number of network fetch
operations performed). -/
def refreshClick (fetch : String → Option (List RawRow × String))
    (s : SessionState) (now : Nat) : SessionState × Nat :=
  if now - s.hist_refreshed_at < HISTORY_TTL then
    (s, 0)
  else
    match refresh_all_histories fetch with
    | .ok cache => (⟨cache, now⟩, 1)
    | .error _ => (s, 1)

/-! ### Ripple.py: window-name mapping -/

/-- `key_map` (Ripple.py): maps the four radio labels to window keys; any
other label is a `KeyError` (`none`), never a silent fallback. -/
def key_map : String → Option String
  | "Day" => some "day"
  | "Week" => some "week"
  | "Month" => some "month"
  | "Year" => some "year"
  | _ => none

/-- Modelled from the spec: the window → (interval, lookback) mapping the
spec attributes to the system is carried out by the hosted history API, whose
code is not under src/; only its caller (`refresh_all_histories`) and its
documentation in the Ripple page tooltip ("Day - 1-hour candles (last 24h),
Week - 4-hour candles (last 7 days), Month - Daily closes (last 30 days),
Year - Weekly closes (last 52 weeks)") are.  Interval is in minutes, lookback
a candle count; an unsupported window name is rejected with a validation
error, never silently defaulted. -/
def windowMap : String → Except String (Nat × Nat)
  | "day" => .ok (60, 24)
  | "week" => .ok (240, 42)
  | "month" => .ok (1440, 30)
  | "year" => .ok (10080, 52)
  | w => .error ("ValidationError: unsupported window " ++ w)

/-! ### Ripple.py: `get_json` bounded retry -/

/-- `get_json` (Ripple.py): up to `retries` attempts (default 3) with fixed
backoff; the i-th attempt's outcome is `responses i`.  Returns the result and
the number of upstream attempts actually issued.  `aux i remaining` runs the
loop from iteration `i` with `remaining` iterations left. -/
def get_json (responses : Nat → Except String String) (retries : Nat := 3) :
    Except String String × Nat :=
  aux responses 0 retries
where
  aux (responses : Nat → Except String String) :
      Nat → Nat → Except String String × Nat
    | _, 0 => (.error "no attempts", 0)
    | i, rem + 1 =>
      match responses i with
      | .ok js => (.ok js, i + 1)
      | .error e => if rem = 0 then (.error e, i + 1) else aux responses (i + 1) rem

/-! ### pages/Ethereum.py: prediction wake-up retry loop -/

/-- The predict-button retry loop in pages/Ethereum.py: up to
`max_retries = 60` GET attempts, each either returning a 200 payload
(`some`) or failing (`none`, covering non-200 status and request
exceptions); stops at the first success.  Returns the payload (if any) and
the number of attempts issued. -/
def ethPredictLoop (responses : Nat → Option String) : Option String × Nat :=
  aux responses 0 60
where
  aux (responses : Nat → Option String) : Nat → Nat → Option String × Nat
    | _, 0 => (none, 0)
    | i, rem + 1 =>
      match responses i with
      | some dat => (some dat, i + 1)
      | none => if rem = 0 then (none, i + 1) else aux responses (i + 1) rem

/-! ### Bitcoin.py: `call_predict` (prediction request adapter) -/

/-- Outcome of one HTTP GET: a response with a status code and (parsed JSON)
payload, or a raised request exception. -/
inductive HttpResp (P : Type) where
  | resp (status : Nat) (body : P)
  | exn (msg : String)
deriving DecidableEq, Repr

/-- Transient statuses retried by `call_predict`: `(502, 503, 504, 524)`. -/
def transientStatuses : List Nat := [502, 503, 504, 524]

/-- `call_predict` (Bitcoin.py): GET the predict URL; 200 returns the parsed
payload; a transient 5xx/524 status (with `retries > 0`) sleeps and retries
once; an exception (with `retries > 0`) sleeps and retries inside a nested
try.  A non-200 answer after retrying yields `(False, "HTTP <status>")`, an
exhausted exception yields `(False, <exception text>)`.  The i-th GET issued
is `responses i`. -/
def call_predict (responses : Nat → HttpResp P) (retries : Nat := 1) :
    Bool × (P ⊕ String) :=
  match responses 0 with
  | .resp 200 body => (true, .inl body)
  | .resp s _ =>
    if 0 < retries ∧ s ∈ transientStatuses then
      match responses 1 with
      | .resp 200 body => (true, .inl body)
      | .resp s2 _ => (false, .inr ("HTTP " ++ toString s2))
      | .exn _ =>
        match responses 2 with
        | .resp 200 body => (true, .inl body)
        | .resp s3 _ => (false, .inr ("HTTP " ++ toString s3))
        | .exn e2 => (false, .inr e2)
    else (false, .inr ("HTTP " ++ toString s))
  | .exn e =>
    if 0 < retries then
      match responses 1 with
      | .resp 200 body => (true, .inl body)
      | .resp s2 _ => (false, .inr ("HTTP " ++ toString s2))
      | .exn e2 => (false, .inr e2)
    else (false, .inr e)

/-! ### Bitcoin.py: `get_kraken_ohlc` -/

/-- One row of the Kraken OHLC payload as framed by Bitcoin.py
(`["ts", "open", "high", "low", "close", "vwap", "volume", "count"]`), after
the numeric coercions (`pd.to_datetime(unit="s")` on integer epochs never
fails; all other columns are cast with `astype(float)`). -/
structure KrakenRow where
  ts : Int
  open_ : Int
  high : Int
  low : Int
  close : Int
  vwap : Int
  volume : Int
  count : Int
deriving DecidableEq, Repr

/-- The columns selected by `get_kraken_ohlc`'s final
`df[["timestamp", "open", "high", "low", "close", "volume"]]`. -/
structure Candle where
  timestamp : Int
  open_ : Int
  high : Int
  low : Int
  close : Int
  volume : Int
deriving DecidableEq, Repr

/-- Column selection of `get_kraken_ohlc`'s return frame. -/
def KrakenRow.toCandle (r : KrakenRow) : Candle :=
  ⟨r.ts, r.open_, r.high, r.low, r.close, r.volume⟩

/-- `df.tail(n)`: the last `n` rows. -/
def tailRows (n : Nat) (l : List α) : List α :=
  l.drop (l.length - n)

/-- The success path of `get_kraken_ohlc` (Bitcoin.py) applied to a decoded
payload: sort ascending by timestamp, keep the last `days` rows when
`days` is nonzero and the frame is longer, and select the output columns.
The source neither drops nor deduplicates any row, and it performs no
validation of the OHLC fields. -/
def get_kraken_ohlc (days : Nat) (rows : List KrakenRow) : List Candle :=
  let df := sortOn KrakenRow.ts rows
  let df := if days ≠ 0 ∧ days < df.length then tailRows days df else df
  df.map KrakenRow.toCandle

/-- The OHLC sanity invariant from the spec:
`low <= open <= high` and `low <= close <= high`. -/
def candleOk (c : Candle) : Prop :=
  c.low ≤ c.open_ ∧ c.open_ ≤ c.high ∧ c.low ≤ c.close ∧ c.close ≤ c.high

/-- The same invariant on an input payload row. -/
def rowOk (r : KrakenRow) : Prop :=
  r.low ≤ r.open_ ∧ r.open_ ≤ r.high ∧ r.low ≤ r.close ∧ r.close ≤ r.high

instance (c : Candle) : Decidable (candleOk c) := by
  unfold candleOk
  infer_instance

instance (r : KrakenRow) : Decidable (rowOk r) := by
  unfold rowOk
  infer_instance

/-! ### Page-level error handling (C7) -/

/-- How a page run ends: rendering through to the end, halted early by
`st.stop()`, or aborted by an uncaught exception. -/
inductive PageOutcome where
  | continued
  | stopped
  | crashed
deriving DecidableEq, Repr

/-- Bitcoin.py top-level flow around `get_kraken_ohlc`: a fetch exception is
caught inside the function (warning, empty frame), but the page then hits
`if df_ohlc.empty: st.warning(...); st.stop()`, halting the run; a nonempty
frame lets the page render on.  Returns the outcome and whether a
user-visible warning was shown. -/
def bitcoinPageRun (fetch : Except String (List KrakenRow)) :
    PageOutcome × Bool :=
  match fetch with
  | .error _ => (.stopped, true)
  | .ok rows =>
    if (get_kraken_ohlc 90 rows).isEmpty then (.stopped, true)
    else (.continued, false)

/-- pages/Ethereum.py top-level flow around `fetch_kraken_ohlc`: the function
has no try/except and is called at module level (`df = fetch_kraken_ohlc()`),
so any request exception propagates uncaught and aborts the page run. -/
def ethereumPageRun (fetch : Except String (List KrakenRow)) : PageOutcome :=
  match fetch with
  | .error _ => .crashed
  | .ok _ => .continued

/-! ### Ethereum.py / Solana.py fetch normalization (no sort / sort only) -/

/-- `fetch_kraken_ohlc` (Ethereum.py): frames the payload and casts columns
but performs no sort, no row drop and no deduplication. -/
def fetch_kraken_ohlc (rows : List KrakenRow) : List KrakenRow :=
  rows

/-- A CoinGecko OHLC row as framed by `get_sol_ohlc` (Solana.py):
`["timestamp", "open", "high", "low", "close"]`, timestamps from epoch
milliseconds. -/
structure SolRow where
  timestamp : Int
  open_ : Int
  high : Int
  low : Int
  close : Int
deriving DecidableEq, Repr

/-- The success path of `get_sol_ohlc` (Solana.py): sort ascending by
timestamp; no row drop, no deduplication, no validation. -/
def get_sol_ohlc (rows : List SolRow) : List SolRow :=
  sortOn SolRow.timestamp rows

/-! ### Bitcoin.py: `safe_get` and `build_inputs_from_indices` -/

/-- pandas `.iloc[idx]` on a series of length `n`: defined for
`-n <= idx < n`, with a negative index addressing position `n + idx`;
anything else raises (`none`). -/
def ilocGet (s : List Int) (idx : Int) : Option Int :=
  if 0 ≤ idx ∧ idx < s.length then s.get? idx.toNat
  else if -(s.length : Int) ≤ idx ∧ idx < 0 then s.get? ((s.length : Int) + idx).toNat
  else none

/-- `safe_get` (Bitcoin.py): `float(series.iloc[idx])` if possible, else the
default (`np.nan` unless overridden; `none` models NaN). -/
def safe_get (s : List Int) (idx : Int) (dflt : Option Int := none) : Option Int :=
  match ilocGet s idx with
  | some v => some v
  | none => dflt

/-- One row of the daily frame `df_full` as used by
`build_inputs_from_indices` (close, volume, open columns). -/
structure DailyRow where
  open_ : Int
  close : Int
  volume : Int
deriving DecidableEq, Repr

/-- The 7 raw model inputs plus the exposed open, as assembled by
`build_inputs_from_indices`; `none` models NaN. -/
structure ModelInputs where
  close_lag1 : Option Int
  close_lag3 : Option Int
  close_lag7 : Option Int
  body : Option Int
  timeHigh_year : Int
  close : Option Int
  volume : Option Int
  open_t : Option Int
deriving DecidableEq, Repr

/-- `build_inputs_from_indices` (Bitcoin.py): reads close/volume/open at
`idx_today` and close at lags 1, 3, 7 via `safe_get`; `body = close - open`
when both are finite, else NaN; `timeHigh_year` is the current UTC year
(passed here as `year`). -/
def build_inputs_from_indices (df_daily : List DailyRow) (idx_today : Int)
    (year : Int) : ModelInputs :=
  let closes := df_daily.map DailyRow.close
  let volumes := df_daily.map DailyRow.volume
  let opens := df_daily.map DailyRow.open_
  let close_t := safe_get closes idx_today
  let volume_t := safe_get volumes idx_today
  let open_t := safe_get opens idx_today
  let body := match open_t, close_t with
    | some o, some c => some (c - o)
    | _, _ => none
  { close_lag1 := safe_get closes (idx_today - 1)
    close_lag3 := safe_get closes (idx_today - 3)
    close_lag7 := safe_get closes (idx_today - 7)
    body := body
    timeHigh_year := year
    close := close_t
    volume := volume_t
    open_t := open_t }

/-! ### Concrete inputs used to evaluate the definitions -/

/-- A "day" payload of 24 hourly candles in which the timestamp `5 * 3600`
occurs twice, the later occurrence carrying price `999`. -/
def dupDayRows : List RawRow :=
  (List.range 23).map (fun i => ⟨some (3600 * i), some (100 + i)⟩) ++
    [⟨some 18000, some 999⟩]

/-- An upstream oracle whose every window fetch succeeds with a one-row
payload. -/
def constFetch : String → Option (List RawRow × String) :=
  fun _ => some ([⟨some 0, some 100⟩], "2025-01-01T00:00:00Z")

/-- An upstream oracle whose every window fetch fails. -/
def failFetch : String → Option (List RawRow × String) :=
  fun _ => none

/-- The cache produced by `refresh_all_histories constFetch`. -/
def constCache : List (String × HistEntry) :=
  [("day", ⟨[(0, 100)], "2025-01-01T00:00:00Z"⟩),
   ("week", ⟨[(0, 100)], "2025-01-01T00:00:00Z"⟩),
   ("month", ⟨[(0, 100)], "2025-01-01T00:00:00Z"⟩),
   ("year", ⟨[(0, 100)], "2025-01-01T00:00:00Z"⟩)]

/-- An oracle for `call_predict`: the first GET answers 503, every later GET
answers 200. -/
def transientOracle : Nat → HttpResp String :=
  fun i => if i = 0 then .resp 503 "Service Unavailable" else .resp 200 "yhat"

/-- A five-row daily frame with closes 100..104. -/
def fiveRows : List DailyRow :=
  [⟨10, 100, 1⟩, ⟨11, 101, 2⟩, ⟨12, 102, 3⟩, ⟨13, 103, 4⟩, ⟨14, 104, 5⟩]

/-! ### Helper lemmas about the sort model -/

theorem insertOn_perm (key : α → Int) (a : α) (l : List α) :
    (insertOn key a l).Perm (a :: l) := by
  induction l with
  | nil => exact List.Perm.refl _
  | cons b l ih =>
    simp only [insertOn]
    split
    · exact List.Perm.refl _
    · exact (ih.cons b).trans (List.Perm.swap a b l)

theorem sortOn_perm (key : α → Int) (l : List α) :
    (sortOn key l).Perm l := by
  induction l with
  | nil => exact List.Perm.refl _
  | cons a l ih =>
    exact (insertOn_perm key a (sortOn key l)).trans (ih.cons a)

theorem mem_sortOn {key : α → Int} {l : List α} {x : α} :
    x ∈ sortOn key l ↔ x ∈ l :=
  (sortOn_perm key l).mem_iff

theorem mem_insertOn {key : α → Int} {a : α} {l : List α} {x : α} :
    x ∈ insertOn key a l ↔ x = a ∨ x ∈ l := by
  rw [(insertOn_perm key a l).mem_iff, List.mem_cons]

theorem insertOn_pairwise {key : α → Int} (a : α) {l : List α}
    (h : l.Pairwise (fun x y => key x ≤ key y)) :
    (insertOn key a l).Pairwise (fun x y => key x ≤ key y) := by
  induction l with
  | nil => simp [insertOn]
  | cons b l ih =>
    rw [List.pairwise_cons] at h
    obtain ⟨hb, hl⟩ := h
    simp only [insertOn]
    split
    case isTrue hab =>
      rw [List.pairwise_cons]
      refine ⟨?_, List.Pairwise.cons hb hl⟩
      intro x hx
      rcases List.mem_cons.mp hx with rfl | hx
      · exact hab
      · exact le_trans hab (hb x hx)
    case isFalse hab =>
      rw [List.pairwise_cons]
      refine ⟨?_, ih hl⟩
      intro x hx
      rcases mem_insertOn.mp hx with rfl | hx
      · exact le_of_not_le hab
      · exact hb x hx

theorem sortOn_pairwise (key : α → Int) (l : List α) :
    (sortOn key l).Pairwise (fun x y => key x ≤ key y) := by
  induction l with
  | nil => simp [sortOn]
  | cons a l ih => exact insertOn_pairwise a ih

theorem mem_tailRows {n : Nat} {l : List α} {x : α}
    (h : x ∈ tailRows n l) : x ∈ l :=
  List.mem_of_mem_drop h

theorem refresh_go_error (fetch : String → Option (List RawRow × String))
    (ws : List String) (hw : ∃ w ∈ ws, fetch w = none) :
    ∃ e, refresh_all_histories.go fetch ws = .error e := by
  induction ws with
  | nil => simp at hw
  | cons w ws ih =>
    obtain ⟨w', hw', hf⟩ := hw
    simp only [refresh_all_histories.go]
    rcases List.mem_cons.mp hw' with rfl | hmem
    · rw [hf]
      exact ⟨w' ++ ": no data", rfl⟩
    · cases hfw : fetch w with
      | none => exact ⟨w ++ ": no data", rfl⟩
      | some payload =>
        obtain ⟨e, he⟩ := ih ⟨w', hmem, hf⟩
        rw [he]
        exact ⟨e, rfl⟩

theorem get_json_aux_le (responses : Nat → Except String String) :
    ∀ (rem i : Nat), (get_json.aux responses i rem).2 ≤ i + rem := by
  intro rem
  induction rem with
  | zero => intro i; simp [get_json.aux]
  | succ rem ih =>
    intro i
    simp only [get_json.aux]
    cases responses i with
    | ok js => simp
    | error e =>
      by_cases h : rem = 0
      · simp [h]
      · simpa [h] using le_trans (ih (i + 1)) (by omega)

theorem ethPredictLoop_aux_le (responses : Nat → Option String) :
    ∀ (rem i : Nat), (ethPredictLoop.aux responses i rem).2 ≤ i + rem := by
  intro rem
  induction rem with
  | zero => intro i; simp [ethPredictLoop.aux]
  | succ rem ih =>
    intro i
    simp only [ethPredictLoop.aux]
    cases responses i with
    | some dat => simp
    | none =>
      by_cases h : rem = 0
      · simp [h]
      · simpa [h] using le_trans (ih (i + 1)) (by omega)

theorem get_json_aux_all_error (responses : Nat → Except String String)
    (hall : ∀ i, ∃ e, responses i = .error e) :
    ∀ (rem i : Nat), 0 < rem → ∃ e, (get_json.aux responses i rem).1 = .error e := by
  intro rem
  induction rem with
  | zero => omega
  | succ rem ih =>
    intro i _
    obtain ⟨e, he⟩ := hall i
    simp only [get_json.aux, he]
    by_cases h : rem = 0
    · exact ⟨e, by simp [h]⟩
    · simpa [h] using ih (i + 1) (by omega)

/-! ### C1: normalization of fetched Series -/

/-- C1 (amended): the fetchers normalize differently, and none as fully as
claimed — `refresh_all_histories` drops exactly the rows with unparsable
timestamp or price and sorts the rest ascending by timestamp;
`get_kraken_ohlc` and `get_sol_ohlc` sort ascending by timestamp but drop
nothing; `fetch_kraken_ohlc` returns the payload rows in upstream order,
with no sort at all; and no fetcher deduplicates timestamps, so duplicated
timestamps are all retained and even the sorted Series have non-decreasing
rather than strictly increasing timestamps. -/
theorem C1_normalized_series (rows : List RawRow) (krows : List KrakenRow)
    (srows : List SolRow) (days : Nat) :
    (normalizeHistory rows).Pairwise (fun x y => x.1 ≤ y.1) ∧
    (normalizeHistory rows).Perm (rows.filterMap parseRow) ∧
    (get_kraken_ohlc days krows).Pairwise
      (fun c d => c.timestamp ≤ d.timestamp) ∧
    (get_sol_ohlc srows).Pairwise
      (fun c d => c.timestamp ≤ d.timestamp) ∧
    fetch_kraken_ohlc krows = krows := by
  refine ⟨sortOn_pairwise _ _, sortOn_perm _ _, ?_, sortOn_pairwise _ _, rfl⟩
  have hsorted : (sortOn KrakenRow.ts krows).Pairwise
      (fun a b => a.ts ≤ b.ts) := sortOn_pairwise _ _
  simp only [get_kraken_ohlc]
  split
  · rw [List.pairwise_map]
    exact List.Pairwise.sublist (List.drop_sublist _ _) hsorted
  · rw [List.pairwise_map]
    exact hsorted

/-- C1 counterexample: a "day" payload of 24 hourly candles in which the
timestamp `18000` appears twice normalizes to 24 rows — not the claimed 23 —
with both duplicate values (105 and 999) retained, so the timestamps of the
normalized Series are not unique; moreover `fetch_kraken_ohlc` returns an
out-of-order two-row payload in its upstream order, so its Series is not
even non-strictly sorted by timestamp. -/
theorem C1_dup_counterexample :
    (normalizeHistory dupDayRows).length = 24 ∧
    ¬ ((normalizeHistory dupDayRows).map Prod.fst).Nodup ∧
    (18000, 105) ∈ normalizeHistory dupDayRows ∧
    (18000, 999) ∈ normalizeHistory dupDayRows ∧
    fetch_kraken_ohlc
        [⟨7200, 1, 1, 1, 1, 1, 1, 1⟩, ⟨3600, 2, 2, 2, 2, 2, 2, 2⟩]
      = [⟨7200, 1, 1, 1, 1, 1, 1, 1⟩, ⟨3600, 2, 2, 2, 2, 2, 2, 2⟩] ∧
    ¬ ((fetch_kraken_ohlc
        [⟨7200, 1, 1, 1, 1, 1, 1, 1⟩, ⟨3600, 2, 2, 2, 2, 2, 2, 2⟩]).map
          KrakenRow.ts).Pairwise (· ≤ ·) := by decide

/-! ### C2: cache hits are deterministic and network-free -/

/-- C2: after a first page run at a positive instant `t0` has loaded and
cached the histories, a second page run at `t1` within the TTL (with no
intervening forced refresh) performs no network fetch, returns the same
displayed Series, and leaves the cache state unchanged. -/
theorem C2_cache_hit (fetch : String → Option (List RawRow × String))
    (t0 t1 : Nat) (window : String) (cache : List (String × HistEntry))
    (h0 : 0 < t0) (hTTL : t1 - t0 < HISTORY_TTL)
    (hfetch : refresh_all_histories fetch = .ok cache) :
    (pageGet fetch (pageGet fetch ⟨[], 0⟩ t0 window).1 t1 window).2.2 = 0 ∧
    (pageGet fetch (pageGet fetch ⟨[], 0⟩ t0 window).1 t1 window).2.1
      = (pageGet fetch ⟨[], 0⟩ t0 window).2.1 ∧
    (pageGet fetch (pageGet fetch ⟨[], 0⟩ t0 window).1 t1 window).1
      = (pageGet fetch ⟨[], 0⟩ t0 window).1 := by
  have hfirst : pageGet fetch ⟨[], 0⟩ t0 window
      = (⟨cache, t0⟩, cache.lookup window, 1) := by
    simp [pageGet, hfetch]
  have hne : t0 ≠ 0 := Nat.pos_iff_ne_zero.mp h0
  have hsecond : pageGet fetch ⟨cache, t0⟩ t1 window
      = (⟨cache, t0⟩, cache.lookup window, 0) := by
    simp [pageGet, hne]
  rw [hfirst]
  simp [hsecond]

/-- C2 witness: the theorem evaluated at the always-succeeding oracle, with
the first run at `t0 = 10` and the second at `t1 = 20`. -/
theorem C2_witness :
    (pageGet constFetch (pageGet constFetch ⟨[], 0⟩ 10 "day").1 20 "day").2.2
      = 0 ∧
    (pageGet constFetch (pageGet constFetch ⟨[], 0⟩ 10 "day").1 20 "day").2.1
      = (pageGet constFetch ⟨[], 0⟩ 10 "day").2.1 ∧
    (pageGet constFetch (pageGet constFetch ⟨[], 0⟩ 10 "day").1 20 "day").1
      = (pageGet constFetch ⟨[], 0⟩ 10 "day").1 :=
  C2_cache_hit constFetch 10 20 "day" constCache (by decide) (by decide) rfl

/-! ### C3: cooldown-gated manual refresh -/

/-- C3: a manual refresh requested while `now - hist_refreshed_at` is below
the cooldown is refused with no network call; hence if a first refresh at
`t1` is allowed and succeeds, a second request at `t2` within one cooldown
window is refused and the two requests perform exactly one upstream fetch;
the successful refresh replaces `hist_cache` and `hist_refreshed_at`
together. -/
theorem C3_cooldown (fetch : String → Option (List RawRow × String))
    (s : SessionState) (t1 t2 : Nat) (cache : List (String × HistEntry))
    (hAllowed : ¬ t1 - s.hist_refreshed_at < HISTORY_TTL)
    (hSucc : refresh_all_histories fetch = .ok cache)
    (hWin : t2 - t1 < HISTORY_TTL) :
    (∀ (s' : SessionState) (now : Nat),
        now - s'.hist_refreshed_at < HISTORY_TTL →
        refreshClick fetch s' now = (s', 0)) ∧
    (refreshClick fetch s t1).1 = ⟨cache, t1⟩ ∧
    (refreshClick fetch s t1).2 +
      (refreshClick fetch (refreshClick fetch s t1).1 t2).2 = 1 := by
  have hrefuse : ∀ (s' : SessionState) (now : Nat),
      now - s'.hist_refreshed_at < HISTORY_TTL →
      refreshClick fetch s' now = (s', 0) := by
    intro s' now h
    simp [refreshClick, h]
  have h1 : refreshClick fetch s t1 = (⟨cache, t1⟩, 1) := by
    simp [refreshClick, hAllowed, hSucc]
  refine ⟨hrefuse, by rw [h1], ?_⟩
  rw [h1]
  have h2 : refreshClick fetch (⟨cache, t1⟩ : SessionState) t2
      = (⟨cache, t1⟩, 0) := hrefuse _ t2 hWin
  simp [h2]

/-- C3 witness: the theorem evaluated at the always-succeeding oracle, with
the first (allowed) refresh at `t1 = 400` and a second request at
`t2 = 500`, inside the 300 s cooldown. -/
theorem C3_witness :
    (refreshClick constFetch ⟨[], 0⟩ 400).1
      = (⟨constCache, 400⟩ : SessionState) ∧
    (refreshClick constFetch ⟨[], 0⟩ 400).2 +
      (refreshClick constFetch (refreshClick constFetch ⟨[], 0⟩ 400).1 500).2
      = 1 := by
  have h := C3_cooldown constFetch ⟨[], 0⟩ 400 500 constCache (by decide) rfl
    (by decide)
  exact ⟨h.2.1, h.2.2⟩

/-! ### C5: a failed fetch never touches the cache -/

/-- C5: when the upstream fetch fails, the refresh returns the error and the
previously cached Series is left exactly as it was; `refresh_all_histories`
errors whenever any window's fetch fails, discarding all partial results, and
`get_json` surfaces an error after its retries are exhausted. -/
theorem C5_failure_preserves_cache
    (fetch : String → Option (List RawRow × String))
    (s : SessionState) (now : Nat) (e : String)
    (hfail : refresh_all_histories fetch = .error e) :
    (refreshClick fetch s now).1 = s ∧
    (∀ fetch', (∃ w ∈ historyWindows, fetch' w = none) →
      ∃ e', refresh_all_histories fetch' = .error e') ∧
    (∀ (responses : Nat → Except String String) (retries : Nat),
      0 < retries → (∀ i, ∃ er, responses i = .error er) →
      ∃ er, (get_json responses retries).1 = .error er) := by
  refine ⟨?_, ?_, ?_⟩
  · simp only [refreshClick]
    split
    · rfl
    · rw [hfail]
  · intro fetch' hw
    exact refresh_go_error fetch' historyWindows hw
  · intro responses retries hpos hall
    exact get_json_aux_all_error responses hall retries 0 hpos

/-- C5 witness: the theorem evaluated at the always-failing oracle, against a
state holding a previously cached Series. -/
theorem C5_witness :
    (refreshClick failFetch ⟨constCache, 7⟩ 400).1
      = (⟨constCache, 7⟩ : SessionState) := by
  have h := C5_failure_preserves_cache failFetch ⟨constCache, 7⟩ 400
    "day: no data" rfl
  exact h.1

/-! ### C4: window-name mapping -/

/-- C4: the window-name mapping is total on the supported names — each of
"day", "week", "month", "year" maps to exactly one (interval, lookback)
pair — and every unsupported window name is rejected with a validation
error rather than silently falling back; the UI label map `key_map` likewise
maps exactly the four labels.  (`windowMap` is modelled from the spec: the
interval/lookback association is carried out by the hosted history API,
which is not under src/.) -/
theorem C4_window_mapping :
    (∀ w ∈ historyWindows, ∃ p : Nat × Nat, windowMap w = .ok p ∧
        ∀ q : Nat × Nat, windowMap w = .ok q → q = p) ∧
    (∀ w, w ∉ historyWindows → ∃ e, windowMap w = .error e) ∧
    key_map "Day" = some "day" ∧ key_map "Week" = some "week" ∧
    key_map "Month" = some "month" ∧ key_map "Year" = some "year" := by
  refine ⟨?_, ?_, rfl, rfl, rfl, rfl⟩
  · intro w hw
    simp only [historyWindows, List.mem_cons, List.not_mem_nil, or_false] at hw
    rcases hw with rfl | rfl | rfl | rfl
    · exact ⟨(60, 24), rfl, fun q hq => (Except.ok.inj hq).symm⟩
    · exact ⟨(240, 42), rfl, fun q hq => (Except.ok.inj hq).symm⟩
    · exact ⟨(1440, 30), rfl, fun q hq => (Except.ok.inj hq).symm⟩
    · exact ⟨(10080, 52), rfl, fun q hq => (Except.ok.inj hq).symm⟩
  · intro w hw
    unfold windowMap
    split
    · simp [historyWindows] at hw
    · simp [historyWindows] at hw
    · simp [historyWindows] at hw
    · simp [historyWindows] at hw
    · exact ⟨_, rfl⟩

/-- C4 witness: the supported name "day" maps to exactly one pair and the
unsupported name "hour" is rejected. -/
theorem C4_witness :
    (∃ p : Nat × Nat, windowMap "day" = .ok p ∧
        ∀ q : Nat × Nat, windowMap "day" = .ok q → q = p) ∧
    (∃ e, windowMap "hour" = .error e) :=
  ⟨C4_window_mapping.1 "day" (by decide),
   C4_window_mapping.2.1 "hour" (by decide)⟩

/-! ### C6: retry loops are bounded -/

/-- C6 (amended): every retry loop in the system is bounded and every fetch
terminates after a bounded number of upstream attempts — `get_json` issues
at most its `retries` bound (3) and then returns an error, and the Ethereum
predict loop issues at most 60 attempts; the observed per-loop bounds are
1–60 attempts (not 1–3 retries) with 2–10 s delays. -/
theorem C6_bounded_retries :
    (∀ (responses : Nat → Except String String) (retries : Nat),
        (get_json responses retries).2 ≤ retries) ∧
    (∀ responses : Nat → Option String, (ethPredictLoop responses).2 ≤ 60) ∧
    (∀ (responses : Nat → Except String String) (retries : Nat),
        0 < retries → (∀ i, ∃ e, responses i = .error e) →
        ∃ e, (get_json responses retries).1 = .error e) := by
  refine ⟨?_, ?_, ?_⟩
  · intro responses retries
    simpa [get_json] using get_json_aux_le responses retries 0
  · intro responses
    simpa [ethPredictLoop] using ethPredictLoop_aux_le responses 60 0
  · intro responses retries hpos hall
    exact get_json_aux_all_error responses hall retries 0 hpos

/-- C6 counterexample: against an upstream that never answers, the Ethereum
predict-button loop issues 60 attempts — bounded, but far above the claimed
observed bound of 1–3 retries. -/
theorem C6_counterexample :
    (ethPredictLoop (fun _ => none)).2 = 60 ∧ ¬ (60 : Nat) ≤ 3 :=
  ⟨rfl, by decide⟩

/-- C6 witness: the amended bounds evaluated against an always-failing
upstream. -/
theorem C6_witness :
    (get_json (fun _ => .error "timeout") 3).2 ≤ 3 ∧
    (ethPredictLoop (fun _ => none)).2 ≤ 60 ∧
    ∃ e, (get_json (fun _ => .error "timeout") 3).1 = .error e :=
  ⟨C6_bounded_retries.1 _ 3, C6_bounded_retries.2.1 _,
   C6_bounded_retries.2.2 _ 3 (by decide) (fun _ => ⟨"timeout", rfl⟩)⟩

/-! ### C7: error handling at the component boundary -/

/-- C7 (amended): a failing fetch on the Bitcoin page is caught and surfaced
as a warning, but the page then halts via `st.stop()` instead of continuing
to render; on the Ethereum page `fetch_kraken_ohlc` has no handler, so fetch
errors propagate uncaught and abort the page run. -/
theorem C7_error_boundary (e : String) :
    bitcoinPageRun (.error e) = (.stopped, true) ∧
    ethereumPageRun (.error e) = .crashed :=
  ⟨rfl, rfl⟩

/-- C7 counterexample: a connection error during the Ethereum fetch is not
caught at any component boundary (the page run aborts), and a failed Bitcoin
fetch stops the page rather than letting it continue rendering. -/
theorem C7_counterexample :
    ethereumPageRun (.error "ConnectionError") = .crashed ∧
    PageOutcome.crashed ≠ PageOutcome.continued ∧
    bitcoinPageRun (.error "ConnectionError") = (.stopped, true) ∧
    PageOutcome.stopped ≠ PageOutcome.continued := by decide

/-! ### C8: OHLC candle invariant -/

/-- C8 (amended): `get_kraken_ohlc` copies the OHLC fields of each row
through unchanged, so when every upstream row satisfies
`low <= open <= high` and `low <= close <= high`, every candle of the
normalized Series does too; the function performs no validation, so a
violating row is passed through silently rather than surfaced as an
error. -/
theorem C8_invariant_when_upstream_ok (days : Nat) (rows : List KrakenRow)
    (h : ∀ r ∈ rows, rowOk r) :
    ∀ c ∈ get_kraken_ohlc days rows, candleOk c := by
  intro c hc
  simp only [get_kraken_ohlc, List.mem_map] at hc
  obtain ⟨r, hr, hcr⟩ := hc
  have hrmem : r ∈ rows := by
    split at hr
    · exact mem_sortOn.mp (mem_tailRows hr)
    · exact mem_sortOn.mp hr
  subst hcr
  exact h r hrmem

/-- C8 witness: the theorem evaluated on a one-row payload satisfying the
invariant. -/
theorem C8_witness : candleOk ⟨1, 10, 20, 5, 15, 7⟩ :=
  C8_invariant_when_upstream_ok 90 [⟨1, 10, 20, 5, 15, 99, 7, 3⟩]
    (by decide) ⟨1, 10, 20, 5, 15, 7⟩ (by decide)

/-- C8 counterexample: an upstream row violating the invariant
(low 20 > high 5) is passed through `get_kraken_ohlc` unchanged — the
returned Series contains the violating candle and no error of any kind is
produced. -/
theorem C8_counterexample :
    get_kraken_ohlc 90 [⟨0, 10, 5, 20, 15, 0, 7, 1⟩]
      = [⟨0, 10, 5, 20, 15, 7⟩] ∧
    ¬ candleOk ⟨0, 10, 5, 20, 15, 7⟩ := by decide

/-! ### C9: prediction adapter retries transient statuses -/

/-- C9: when the prediction endpoint answers a transient error status
(502, 503, 504 or 524) on the first attempt and HTTP 200 on the retry,
`call_predict` returns `(True, payload)` with no error surfaced. -/
theorem C9_transient_retry (P : Type) (responses : Nat → HttpResp P)
    (s : Nat) (b payload : P)
    (h0 : responses 0 = .resp s b) (hs : s ∈ transientStatuses)
    (h1 : responses 1 = .resp 200 payload) :
    call_predict responses 1 = (true, .inl payload) := by
  have hs' : s = 502 ∨ s = 503 ∨ s = 504 ∨ s = 524 := by
    simpa [transientStatuses] using hs
  unfold call_predict
  rw [h0]
  rcases hs' with rfl | rfl | rfl | rfl <;> simp [transientStatuses, h1]

/-- C9 witness: the theorem evaluated at a concrete oracle answering 503
then 200. -/
theorem C9_witness : call_predict transientOracle 1 = (true, .inl "yhat") :=
  C9_transient_retry String transientOracle 503 "Service Unavailable" "yhat"
    rfl (by decide) rfl

/-! ### C10: negative indexing in `safe_get` -/

/-- C10: for a series of length `n` and `-n <= idx < 0`, `safe_get` returns
the element at position `n + idx` (Python negative indexing wraps to the
end), never the default; consequently `build_inputs_from_indices` on a
5-row frame fills `close_lag7` with row 2's close — a value from the end of
the series — instead of reporting it absent. -/
theorem C10_safe_get_negative :
    (∀ (s : List Int) (idx : Int) (dflt : Option Int),
        -(s.length : Int) ≤ idx → idx < 0 →
        safe_get s idx dflt = s.get? ((s.length : Int) + idx).toNat ∧
        (safe_get s idx dflt).isSome) ∧
    (build_inputs_from_indices fiveRows 4 2025).close_lag7 = some 102 ∧
    (build_inputs_from_indices fiveRows 4 2025).close_lag7 ≠ none := by
  refine ⟨?_, by decide, by decide⟩
  intro s idx dflt h1 h2
  have hnotpos : ¬ (0 ≤ idx ∧ idx < (s.length : Int)) := by omega
  have hneg : -(s.length : Int) ≤ idx ∧ idx < 0 := ⟨h1, h2⟩
  have hlt : ((s.length : Int) + idx).toNat < s.length := by omega
  obtain ⟨v, hv⟩ : ∃ v, s.get? ((s.length : Int) + idx).toNat = some v :=
    ⟨_, List.get?_eq_get hlt⟩
  have hiloc : ilocGet s idx = some v := by
    unfold ilocGet
    rw [if_neg hnotpos, if_pos hneg]
    exact hv
  have hsafe : safe_get s idx dflt = some v := by
    simp [safe_get, hiloc]
  exact ⟨hsafe.trans hv.symm, by rw [hsafe]; rfl⟩

/-- C10 witness: the wrap applied to a 3-element series at index -2. -/
theorem C10_witness : safe_get [10, 20, 30] (-2) none = some 20 := by
  have h := C10_safe_get_negative.1 [10, 20, 30] (-2) none
    (by decide) (by decide)
  exact h.1.trans (by decide)
